import Mathlib

/-!
Shallow embedding of the `expressjs-api-project` HTTP application:
the middlewares of `src/middlewares.js`, the two echo handlers of
`src/routers/lib/echo.js` and `src/api/lib/echo.js`, the routers of
`src/routers/router.js` and `src/api/api.js`, and the application
assembly of `src/app.js` / `server.js`.

Machine strings are Lean `String`s; the mutable request/response pair of
an exchange is passed explicitly; the process console (stdout/stderr) is
an explicit list of emitted lines threaded through the pipeline; a thrown
JavaScript exception is an explicit `Outcome.thrown` value, dispatched to
the error-handling middleware exactly as Express dispatches it.
-/

namespace ExpressApp

/-- A JavaScript JSON value, as produced by the runtime function
`JSON.parse` and consumed by `JSON.stringify` (via `res.json`). -/
inductive JsonVal : Type where
  | null : JsonVal
  | bool (b : Bool) : JsonVal
  | num (n : Int) : JsonVal
  | str (s : String) : JsonVal
  | arr (elems : List JsonVal) : JsonVal
  | obj (fields : List (String × JsonVal)) : JsonVal

/-- JSON string escaping for the two characters occurring in this
application's fixed payloads domain (quote and backslash). -/
def escapeJson (s : String) : String :=
  String.mk (s.data.foldr
    (fun c acc =>
      if c = '"' then '\\' :: '"' :: acc
      else if c = '\\' then '\\' :: '\\' :: acc
      else c :: acc) [])

mutual
/-- Modelled from the spec: `JSON.stringify` of the JavaScript runtime
(invoked by Express `res.json`), which is not part of this repository.
Renders with no whitespace, object keys in insertion order. -/
def renderJson : JsonVal → String
  | JsonVal.null => "null"
  | JsonVal.bool true => "true"
  | JsonVal.bool false => "false"
  | JsonVal.num n => toString n
  | JsonVal.str s => "\"" ++ escapeJson s ++ "\""
  | JsonVal.arr es => "[" ++ renderArr es ++ "]"
  | JsonVal.obj fs => "\x7b" ++ renderObj fs ++ "\x7d"

/-- Comma-separated rendering of array elements. -/
def renderArr : List JsonVal → String
  | [] => ""
  | [e] => renderJson e
  | e :: es => renderJson e ++ "," ++ renderArr es

/-- Comma-separated rendering of object fields. -/
def renderObj : List (String × JsonVal) → String
  | [] => ""
  | [(k, v)] => "\"" ++ escapeJson k ++ "\":" ++ renderJson v
  | (k, v) :: fs => "\"" ++ escapeJson k ++ "\":" ++ renderJson v ++ "," ++ renderObj fs
end

namespace JSON

/-- Characters treated as insignificant whitespace by `JSON.parse`. -/
def isWs (c : Char) : Bool :=
  c = ' ' || c = '\t' || c = '\n' || c = '\r'

/-- Drop leading JSON whitespace. -/
def skipWs : List Char → List Char
  | [] => []
  | c :: cs => if isWs c then skipWs cs else c :: cs

/-- Accumulate the value of a leading decimal digit run. -/
def digitsAcc (acc : Nat) : List Char → Nat × List Char
  | [] => (acc, [])
  | c :: cs =>
    if c.isDigit then digitsAcc (acc * 10 + (c.toNat - 48)) cs
    else (acc, c :: cs)

/-- Parse a decimal digit run (at least one digit). -/
def parseDigits : List Char → Option (Nat × List Char)
  | [] => none
  | c :: cs => if c.isDigit then some (digitsAcc (c.toNat - 48) cs) else none

/-- Parse the body of a JSON string literal after the opening quote,
up to and past the closing quote.  Supports the escapes needed for this
application's payload domain. -/
def parseStringBody : List Char → Option (String × List Char)
  | [] => none
  | c :: cs =>
    if c = '"' then some ("", cs)
    else if c = '\\' then
      match cs with
      | [] => none
      | e :: cs2 =>
        let unesc : Option Char :=
          if e = '"' then some '"'
          else if e = '\\' then some '\\'
          else if e = '/' then some '/'
          else if e = 'n' then some '\n'
          else if e = 't' then some '\t'
          else if e = 'r' then some '\r'
          else none
        match unesc with
        | none => none
        | some u =>
          match parseStringBody cs2 with
          | some (s, rest) => some (String.mk (u :: s.data), rest)
          | none => none
    else
      match parseStringBody cs with
      | some (s, rest) => some (String.mk (c :: s.data), rest)
      | none => none

/-- Does the list start with the given literal word? Returns the rest. -/
def stripWord : List Char → List Char → Option (List Char)
  | [], cs => some cs
  | _, [] => none
  | w :: ws, c :: cs => if w = c then stripWord ws cs else none

mutual
/-- Modelled from the spec: the grammar of `JSON.parse` from the
JavaScript runtime, which is not part of this repository.  Fuel-indexed
recursive-descent parser over the character list; integers only in the
number production (sufficient for the failure/success distinction the
middlewares depend on). -/
def parseVal : Nat → List Char → Option (JsonVal × List Char)
  | 0, _ => none
  | _ + 1, [] => none
  | fuel + 1, c :: cs =>
    if c = 'n' then
      match stripWord ['u', 'l', 'l'] cs with
      | some rest => some (JsonVal.null, rest)
      | none => none
    else if c = 't' then
      match stripWord ['r', 'u', 'e'] cs with
      | some rest => some (JsonVal.bool true, rest)
      | none => none
    else if c = 'f' then
      match stripWord ['a', 'l', 's', 'e'] cs with
      | some rest => some (JsonVal.bool false, rest)
      | none => none
    else if c = '"' then
      match parseStringBody cs with
      | some (s, rest) => some (JsonVal.str s, rest)
      | none => none
    else if c = '-' then
      match parseDigits cs with
      | some (n, rest) => some (JsonVal.num (-(n : Int)), rest)
      | none => none
    else if c.isDigit then
      match parseDigits (c :: cs) with
      | some (n, rest) => some (JsonVal.num (n : Int), rest)
      | none => none
    else if c = '[' then
      match skipWs cs with
      | ']' :: rest => some (JsonVal.arr [], rest)
      | cs2 =>
        match parseElems fuel cs2 with
        | some (es, rest) => some (JsonVal.arr es, rest)
        | none => none
    else if c = '\x7b' then
      match skipWs cs with
      | '\x7d' :: rest => some (JsonVal.obj [], rest)
      | cs2 =>
        match parseFields fuel cs2 with
        | some (fs, rest) => some (JsonVal.obj fs, rest)
        | none => none
    else none

/-- Parse one or more comma-separated array elements and the closing
bracket. -/
def parseElems : Nat → List Char → Option (List JsonVal × List Char)
  | 0, _ => none
  | fuel + 1, cs =>
    match parseVal fuel (skipWs cs) with
    | none => none
    | some (v, rest) =>
      match skipWs rest with
      | ',' :: rest2 =>
        match parseElems fuel rest2 with
        | some (vs, rest3) => some (v :: vs, rest3)
        | none => none
      | ']' :: rest2 => some ([v], rest2)
      | _ => none

/-- Parse one or more comma-separated object fields and the closing
brace. -/
def parseFields : Nat → List Char → Option (List (String × JsonVal) × List Char)
  | 0, _ => none
  | fuel + 1, cs =>
    match skipWs cs with
    | '"' :: cs2 =>
      match parseStringBody cs2 with
      | none => none
      | some (k, rest) =>
        match skipWs rest with
        | ':' :: rest2 =>
          match parseVal fuel (skipWs rest2) with
          | none => none
          | some (v, rest3) =>
            match skipWs rest3 with
            | ',' :: rest4 =>
              match parseFields fuel rest4 with
              | some (fs, rest5) => some ((k, v) :: fs, rest5)
              | none => none
            | '\x7d' :: rest4 => some ([(k, v)], rest4)
            | _ => none
        | _ => none
    | _ => none
end

/-- Modelled from the spec: `JSON.parse` from the JavaScript runtime,
which is not part of this repository.  `none` is a thrown
`SyntaxError`; the input must be a single JSON value surrounded only by
whitespace. -/
def parse (s : String) : Option JsonVal :=
  match parseVal (s.length + 1) (skipWs s.data) with
  | some (v, rest) => if skipWs rest = [] then some v else none
  | none => none

end JSON

/-- A thrown JavaScript error, as observed by the error-handling
middleware (which reads only `err.stack`). -/
structure JsError : Type where
  stack : String
deriving Repr, DecidableEq

/-- The `body` field of a JavaScript request object: initially
`undefined` or raw text, possibly replaced by a structured value by one
of the body-parsing middlewares. -/
inductive BodyVal : Type where
  | undef : BodyVal
  | raw (s : String) : BodyVal
  | parsed (j : JsonVal) : BodyVal
  | form (kvs : List (String × String)) : BodyVal

mutual
/-- Modelled from the spec: JavaScript string coercion `String(x)` of a
structured value, as applied by `JSON.parse` to a non-string argument;
not part of this repository. -/
def JsonVal.jsToString : JsonVal → String
  | JsonVal.null => "null"
  | JsonVal.bool true => "true"
  | JsonVal.bool false => "false"
  | JsonVal.num n => toString n
  | JsonVal.str s => s
  | JsonVal.arr es => JsonVal.jsToStringList es
  | JsonVal.obj _ => "[object Object]"

/-- Array elements joined with commas, as JavaScript `Array.toString`. -/
def JsonVal.jsToStringList : List JsonVal → String
  | [] => ""
  | [e] => JsonVal.jsToString e
  | e :: es => JsonVal.jsToString e ++ "," ++ JsonVal.jsToStringList es
end

/-- Modelled from the spec: JavaScript string coercion of the request
body as passed to `JSON.parse` (`undefined` coerces to the text
"undefined"); not part of this repository. -/
def BodyVal.jsToString : BodyVal → String
  | BodyVal.undef => "undefined"
  | BodyVal.raw s => s
  | BodyVal.parsed j => j.jsToString
  | BodyVal.form _ => "[object Object]"

/-- Lowercase an ASCII letter, leave any other character unchanged. -/
def lowerChar (c : Char) : Char :=
  if 'A' ≤ c ∧ c ≤ 'Z' then Char.ofNat (c.toNat + 32) else c

/-- Lowercase a header name (ASCII letters). -/
def lowerName (s : String) : String :=
  String.mk (s.data.map lowerChar)

/-- Case-insensitive equality of HTTP header names (Node request header
keys are lowercased by the runtime; `res.setHeader` / `res.removeHeader`
match names case-insensitively). -/
def nameEq (a b : String) : Bool :=
  lowerName a == lowerName b

/-- Look up a header by name, case-insensitively. -/
def headerGet (hs : List (String × String)) (name : String) : Option String :=
  match hs with
  | [] => none
  | (k, v) :: rest => if nameEq k name then some v else headerGet rest name

/-- Remove every header with the given name (Node `res.removeHeader`). -/
def headerRemove (hs : List (String × String)) (name : String) : List (String × String) :=
  hs.filter (fun p => !(nameEq p.1 name))

/-- Set a header to a value, replacing any existing header of that name
(Node `res.setHeader`). -/
def headerSet (hs : List (String × String)) (name val : String) : List (String × String) :=
  headerRemove hs name ++ [(name, val)]

/-- One HTTP request of an exchange: method, url (path), headers with
lowercased names, body, and the `cookies` field attached by the cookie
middleware. -/
structure Request : Type where
  method : String
  url : String
  headers : List (String × String)
  body : BodyVal
  cookies : List (String × String)

/-- One HTTP response of an exchange: status code, headers, and the
serialized body once a terminal handler has written it. -/
structure Response : Type where
  status : Nat
  headers : List (String × String)
  body : Option String
deriving Repr, DecidableEq

/-- Express `res.status(n).json(v)`: set the status code, set the
content-type header, serialize the value as the body. -/
def resJson (res : Response) (status : Nat) (v : JsonVal) : Response :=
  { status := status
    headers := headerSet res.headers "Content-Type" "application/json; charset=utf-8"
    body := some (renderJson v) }

/-- The result of running one middleware: forward control (possibly with
a mutated request/response), terminate having written the response, or
throw an error. The console log is threaded through explicitly. -/
inductive Outcome : Type where
  | next (req : Request) (res : Response) (log : List String) : Outcome
  | done (res : Response) (log : List String) : Outcome
  | thrown (e : JsError) (res : Response) (log : List String) : Outcome

/-- An ordinary (three-argument) Express middleware. -/
abbrev Middleware : Type := Request → Response → List String → Outcome

/-- Middleware from src/middlewares.js: sends 404 with a fixed JSON
failure body; terminal. -/
def notFound : Middleware := fun _req res log =>
  Outcome.done
    (resJson res 404 (JsonVal.obj
      [("status", JsonVal.bool false), ("message", JsonVal.str "Not found")]))
    log

/-- Middleware from src/middlewares.js: the four-argument error handler;
logs `err.stack` to the console and sends 500 with a fixed JSON failure
body; terminal. -/
def errorHandler (err : JsError) (_req : Request) (res : Response)
    (log : List String) : Outcome :=
  Outcome.done
    (resJson res 500 (JsonVal.obj
      [("status", JsonVal.bool false), ("message", JsonVal.str "Internal server error")]))
    (log ++ [err.stack])

/-- Middleware from src/middlewares.js: logs the request method and url
to the console and forwards control. -/
def logger : Middleware := fun req res log =>
  Outcome.next req res (log ++ [req.method ++ " " ++ req.url])

/-- Middleware from src/middlewares.js: when the content-type request
header strictly equals "application/json", replaces the body with
`JSON.parse` of it (throwing when the parse fails); otherwise leaves
the request untouched; forwards control when no throw occurs. -/
def jsonParser : Middleware := fun req res log =>
  if headerGet req.headers "content-type" = some "application/json" then
    match JSON.parse req.body.jsToString with
    | some j => Outcome.next { req with body := BodyVal.parsed j } res log
    | none =>
      Outcome.thrown
        { stack := "SyntaxError: Unexpected token u in JSON at position 0" } res log
  else
    Outcome.next req res log

namespace qs

/-- Split a text at the first "=" into a key/value pair. -/
def splitPair (s : String) : String × String :=
  match s.splitOn "=" with
  | [] => (s, "")
  | [k] => (k, "")
  | k :: rest => (k, String.intercalate "=" rest)

/-- Modelled from the spec: the `qs` package's `parse`, which is not
part of this repository. A non-string argument (such as an undefined
body) yields the empty mapping; a string is split on "&" and each
segment at its first "=". -/
def parse (b : BodyVal) : List (String × String) :=
  match b with
  | BodyVal.raw s =>
    ((s.splitOn "&").filter (fun seg => seg ≠ "")).map splitPair
  | _ => []

end qs

/-- Middleware from src/middlewares.js: when the content-type request
header strictly equals "application/x-www-form-urlencoded", replaces
the body with `qs.parse` of it; otherwise leaves the request untouched;
always forwards control. -/
def urlEncodedParser : Middleware := fun req res log =>
  if headerGet req.headers "content-type" = some "application/x-www-form-urlencoded" then
    Outcome.next { req with body := BodyVal.form (qs.parse req.body) } res log
  else
    Outcome.next req res log

namespace cookie

/-- Modelled from the spec: the `cookie` package's `parse`, which is not
part of this repository. Splits the cookie header text on ";", trims
spaces, and splits each segment at its first "="; segments without "="
are dropped. -/
def parse (s : String) : List (String × String) :=
  ((s.splitOn ";").map (fun seg => seg.trim)).filterMap (fun seg =>
    match seg.splitOn "=" with
    | [] => none
    | [_] => none
    | k :: rest => some (k, String.intercalate "=" rest))

end cookie

/-- Middleware from src/middlewares.js: attaches the parse of the cookie
request header (or of "" when absent) as the request's `cookies` field;
always forwards control. -/
def cookieParser : Middleware := fun req res log =>
  Outcome.next
    { req with cookies := cookie.parse ((headerGet req.headers "cookie").getD "") }
    res log

/-- Middleware from src/middlewares.js: unconditionally sets the three
CORS response headers to the wildcard and forwards control. -/
def cors : Middleware := fun req res log =>
  Outcome.next req
    { res with headers :=
        (headerSet
          (headerSet
            (headerSet res.headers "Access-Control-Allow-Origin" "*")
            "Access-Control-Allow-Methods" "*")
          "Access-Control-Allow-Headers" "*") }
    log

namespace custom

/-- Middleware from src/middlewares.js (`custom` object): removes a
trailing slash from the request url when the url is longer than one
character; always forwards control. -/
def remove_trailing_slash : Middleware := fun req res log =>
  if req.url.endsWith "/" && req.url.length > 1 then
    Outcome.next { req with url := req.url.dropRight 1 } res log
  else
    Outcome.next req res log

/-- Middleware from src/middlewares.js (`custom` object): removes the
X-Powered-By response header; always forwards control. -/
def remove_x_powered_by : Middleware := fun req res log =>
  Outcome.next req { res with headers := headerRemove res.headers "X-Powered-By" } log

/-- Middleware from src/middlewares.js (`custom` object): removes the
ETag response header; always forwards control. -/
def remove_etag : Middleware := fun req res log =>
  Outcome.next req { res with headers := headerRemove res.headers "ETag" } log

/-- Middleware from src/middlewares.js (`custom` object): removes the
X-Content-Type-Options response header; always forwards control. -/
def remove_x_content_type_options : Middleware := fun req res log =>
  Outcome.next req
    { res with headers := headerRemove res.headers "X-Content-Type-Options" } log

end custom

namespace routers

/-- Handler from src/routers/lib/echo.js: sends 200 with the fixed
root-greeting JSON body; terminal. -/
def echo : Middleware := fun _req res log =>
  Outcome.done
    (resJson res 200 (JsonVal.obj
      [("status", JsonVal.bool true), ("message", JsonVal.str "Hello world, from /")]))
    log

/-- Router from src/routers/router.js, mounted at "/" in src/app.js,
with the single route GET "/" handled by `routers.echo`.  Modelled from
the spec for the Express dispatch itself (library code not in this
repository): an exact method-and-path match under the mount point runs
the handler, anything else falls through to the next stage. -/
def router : Middleware := fun req res log =>
  if req.method = "GET" ∧ req.url = "/" then echo req res log
  else Outcome.next req res log

end routers

namespace api

/-- Handler from src/api/lib/echo.js: sends 200 with the fixed
API-greeting JSON body; terminal. -/
def echo : Middleware := fun _req res log =>
  Outcome.done
    (resJson res 200 (JsonVal.obj
      [("status", JsonVal.bool true), ("message", JsonVal.str "Hello world, from the API!")]))
    log

/-- Router from src/api/api.js, mounted at "/api" in src/app.js, with
the single route GET "/echo" handled by `api.echo`.  Modelled from the
spec for the Express dispatch itself (library code not in this
repository): an exact method-and-path match under the mount point runs
the handler, anything else falls through to the next stage. -/
def router : Middleware := fun req res log =>
  if req.method = "GET" ∧ req.url = "/api/echo" then echo req res log
  else Outcome.next req res log

end api

/-- One mounted stage of the application of src/app.js, in the order of
its `app.use` calls. -/
inductive Stage : Type where
  | logger : Stage
  | cors : Stage
  | remove_x_powered_by : Stage
  | jsonParser : Stage
  | urlEncodedParser : Stage
  | cookieParser : Stage
  | apiRouter : Stage
  | rootRouter : Stage
  | notFound : Stage
  | errorHandler : Stage
deriving Repr, DecidableEq

/-- The application of src/app.js: the stages in the order they are
mounted by its `app.use` calls. -/
def app : List Stage :=
  [Stage.logger, Stage.cors, Stage.remove_x_powered_by, Stage.jsonParser,
   Stage.urlEncodedParser, Stage.cookieParser, Stage.apiRouter, Stage.rootRouter,
   Stage.notFound, Stage.errorHandler]

/-- The ordinary-middleware semantics of each three-argument stage.
The error-handling stage never appears here: `runChain` and `runError`
treat it specially, exactly as Express dispatches four-argument
middlewares only on error. -/
def stageSem : Stage → Middleware
  | Stage.logger => logger
  | Stage.cors => cors
  | Stage.remove_x_powered_by => custom.remove_x_powered_by
  | Stage.jsonParser => jsonParser
  | Stage.urlEncodedParser => urlEncodedParser
  | Stage.cookieParser => cookieParser
  | Stage.apiRouter => api.router
  | Stage.rootRouter => routers.router
  | Stage.notFound => notFound
  | Stage.errorHandler => fun req res log => Outcome.next req res log

/-- Express error dispatch: after a throw, remaining ordinary stages are
skipped and the first error-handling (four-argument) stage runs.  When
none remains the response is returned as-is (modelled from the spec:
the framework's default last-resort handler, never reached in this
application since `errorHandler` is mounted last). -/
def runError : List Stage → JsError → Request → Response → List String →
    Response × List String
  | [], _e, _req, res, log => (res, log)
  | Stage.errorHandler :: _rest, e, req, res, log =>
    match errorHandler e req res log with
    | Outcome.next _req2 res2 log2 => (res2, log2)
    | Outcome.done res2 log2 => (res2, log2)
    | Outcome.thrown _e2 res2 log2 => (res2, log2)
  | _ :: rest, e, req, res, log =>
    runError rest e req res log

/-- Express normal dispatch over the mounted stages: each ordinary stage
runs in order; forwarding continues the chain, termination returns the
response, a throw switches to error dispatch over the remaining stages;
the four-argument error-handling stage is skipped. -/
def runChain : List Stage → Request → Response → List String →
    Response × List String
  | [], _req, res, log => (res, log)
  | Stage.errorHandler :: rest, req, res, log =>
    runChain rest req res log
  | s :: rest, req, res, log =>
    match stageSem s req res log with
    | Outcome.next req2 res2 log2 => runChain rest req2 res2 log2
    | Outcome.done res2 log2 => (res2, log2)
    | Outcome.thrown e res2 log2 => runError rest e req res2 log2

/-- Modelled from the spec: the response object as the Express framework
hands it to the first middleware, carrying the framework-identifying
X-Powered-By header the framework sets on every response; not part of
this repository. -/
def initResponse : Response :=
  { status := 200, headers := [("X-Powered-By", "Express")], body := none }

/-- Process one exchange: run the assembled application on a request,
threading the console log. -/
def handleExchange (log : List String) (req : Request) : Response × List String :=
  runChain app req initResponse log

/-- The response of the assembled application to a request. -/
def handleApp (req : Request) : Response :=
  (handleExchange [] req).1

/-- The serialized body of the GET / echo response. -/
def helloRootBody : String :=
  "\x7b\"status\":true,\"message\":\"Hello world, from /\"\x7d"

/-- The serialized body of the GET /api/echo echo response. -/
def helloApiBody : String :=
  "\x7b\"status\":true,\"message\":\"Hello world, from the API!\"\x7d"

/-- The serialized body of the 404 response. -/
def notFoundBody : String :=
  "\x7b\"status\":false,\"message\":\"Not found\"\x7d"

/-- The serialized body of the 500 response. -/
def internalErrorBody : String :=
  "\x7b\"status\":false,\"message\":\"Internal server error\"\x7d"

end ExpressApp

namespace ExpressApp

/-- The response headers every terminal handler of the assembled
application ends up with: the three CORS wildcards (set by `cors`,
surviving the X-Powered-By removal) plus the content type set by
`res.json`. -/
def appHeaders : List (String × String) :=
  [("Access-Control-Allow-Origin", "*"), ("Access-Control-Allow-Methods", "*"),
   ("Access-Control-Allow-Headers", "*"),
   ("Content-Type", "application/json; charset=utf-8")]

/-- The response of the assembled application to GET /. -/
def okRootResponse : Response :=
  { status := 200, headers := appHeaders, body := some helloRootBody }

/-- The response of the assembled application to GET /api/echo. -/
def okApiResponse : Response :=
  { status := 200, headers := appHeaders, body := some helloApiBody }

/-- The 404 response of the assembled application. -/
def notFoundResponse : Response :=
  { status := 404, headers := appHeaders, body := some notFoundBody }

/-- The 500 response of the assembled application. -/
def errorResponse : Response :=
  { status := 500, headers := appHeaders, body := some internalErrorBody }

/-- Full case analysis of the assembled application: a request on which
the JSON body parser throws gets the 500 response; otherwise dispatch is
by method and path, with the 404 response as the fall-through. -/
theorem handleApp_cases (req : Request) :
    handleApp req =
      if headerGet req.headers "content-type" = some "application/json"
          ∧ (JSON.parse req.body.jsToString).isNone then errorResponse
      else if req.method = "GET" ∧ req.url = "/api/echo" then okApiResponse
      else if req.method = "GET" ∧ req.url = "/" then okRootResponse
      else notFoundResponse := by
  obtain ⟨m, u, hs, b, cks⟩ := req
  by_cases hct : headerGet hs "content-type" = some "application/json"
  · cases hp : JSON.parse (BodyVal.jsToString b) with
    | none =>
      simp only [handleApp, handleExchange, app, runChain, stageSem, logger, cors,
        custom.remove_x_powered_by, jsonParser, urlEncodedParser, cookieParser,
        runError, errorHandler, hct, hp]
      simp [errorResponse, appHeaders, resJson, headerSet, headerRemove, nameEq,
        lowerName, lowerChar, internalErrorBody, initResponse,
        renderJson, renderObj, escapeJson, hct, hp]
    | some j =>
      by_cases hapi : m = "GET" ∧ u = "/api/echo"
      · obtain ⟨hm, hu⟩ := hapi
        subst hm hu
        simp only [handleApp, handleExchange, app, runChain, stageSem, logger, cors,
          custom.remove_x_powered_by, jsonParser, urlEncodedParser, cookieParser,
          api.router, api.echo, hct, hp]
        simp [okApiResponse, appHeaders, resJson, headerSet, headerRemove, nameEq,
          lowerName, lowerChar, helloApiBody, initResponse,
          renderJson, renderObj, escapeJson, hct, hp]
      · by_cases hroot : m = "GET" ∧ u = "/"
        · obtain ⟨hm, hu⟩ := hroot
          subst hm hu
          simp only [handleApp, handleExchange, app, runChain, stageSem, logger, cors,
            custom.remove_x_powered_by, jsonParser, urlEncodedParser, cookieParser,
            api.router, routers.router, routers.echo, hct, hp]
          simp [okRootResponse, appHeaders, resJson, headerSet, headerRemove, nameEq,
            lowerName, lowerChar, helloRootBody, initResponse,
            renderJson, renderObj, escapeJson, hct, hp, hapi]
        · simp only [handleApp, handleExchange, app, runChain, stageSem, logger, cors,
            custom.remove_x_powered_by, jsonParser, urlEncodedParser, cookieParser,
            api.router, routers.router, notFound, hct, hp]
          simp [notFoundResponse, appHeaders, resJson, headerSet, headerRemove, nameEq,
            lowerName, lowerChar, notFoundBody, initResponse,
            renderJson, renderObj, escapeJson, hct, hp, hapi, hroot]
  · by_cases hue : headerGet hs "content-type" = some "application/x-www-form-urlencoded"
    all_goals (
      by_cases hapi : m = "GET" ∧ u = "/api/echo"
      · obtain ⟨hm, hu⟩ := hapi
        subst hm hu
        simp only [handleApp, handleExchange, app, runChain, stageSem, logger, cors,
          custom.remove_x_powered_by, jsonParser, urlEncodedParser, cookieParser,
          api.router, api.echo, hct, hue]
        simp [okApiResponse, appHeaders, resJson, headerSet, headerRemove, nameEq,
          lowerName, lowerChar, helloApiBody, initResponse,
          renderJson, renderObj, escapeJson, hct, hue]
      · by_cases hroot : m = "GET" ∧ u = "/"
        · obtain ⟨hm, hu⟩ := hroot
          subst hm hu
          simp only [handleApp, handleExchange, app, runChain, stageSem, logger, cors,
            custom.remove_x_powered_by, jsonParser, urlEncodedParser, cookieParser,
            api.router, routers.router, routers.echo, hct, hue]
          simp [okRootResponse, appHeaders, resJson, headerSet, headerRemove, nameEq,
            lowerName, lowerChar, helloRootBody, initResponse,
            renderJson, renderObj, escapeJson, hct, hue, hapi]
        · simp only [handleApp, handleExchange, app, runChain, stageSem, logger, cors,
            custom.remove_x_powered_by, jsonParser, urlEncodedParser, cookieParser,
            api.router, routers.router, notFound, hct, hue]
          simp [notFoundResponse, appHeaders, resJson, headerSet, headerRemove, nameEq,
            lowerName, lowerChar, notFoundBody, initResponse,
            renderJson, renderObj, escapeJson, hct, hue, hapi, hroot])

end ExpressApp

namespace ExpressApp

/-- Prepend earlier console output to the log component of an outcome.
Middlewares only append to the console; this expresses that. -/
def withLog (log : List String) : Outcome → Outcome
  | Outcome.next q r l => Outcome.next q r (log ++ l)
  | Outcome.done r l => Outcome.done r (log ++ l)
  | Outcome.thrown e r l => Outcome.thrown e r (log ++ l)

/-- Every stage's outcome on console log `log` is its outcome on the
empty log with `log` prepended: stages append to the console and never
read it. -/
theorem stageSem_shift (s : Stage) (req : Request) (res : Response) (log : List String) :
    stageSem s req res log = withLog log (stageSem s req res []) := by
  cases s <;>
    simp only [stageSem, logger, cors, custom.remove_x_powered_by, jsonParser,
      urlEncodedParser, cookieParser, api.router, routers.router, api.echo,
      routers.echo, notFound, withLog]
  case logger => simp [withLog]
  case jsonParser =>
    by_cases h : headerGet req.headers "content-type" = some "application/json"
    · simp only [h, if_pos]
      cases JSON.parse req.body.jsToString <;> simp [withLog]
    · simp [h, withLog]
  case urlEncodedParser =>
    by_cases h : headerGet req.headers "content-type" = some "application/x-www-form-urlencoded" <;>
      simp [h, withLog]
  case cookieParser => simp [withLog]
  case apiRouter =>
    by_cases h : req.method = "GET" ∧ req.url = "/api/echo" <;> simp [h, withLog, api.echo]
  case rootRouter =>
    by_cases h : req.method = "GET" ∧ req.url = "/" <;> simp [h, withLog, routers.echo]
  all_goals simp [withLog]

/-- Error dispatch appends to the console and never reads it. -/
theorem runError_shift (stages : List Stage) (e : JsError) (req : Request)
    (res : Response) (log : List String) :
    runError stages e req res log =
      ((runError stages e req res []).1, log ++ (runError stages e req res []).2) := by
  induction stages generalizing log with
  | nil => simp [runError]
  | cons s rest ih =>
    cases s
    case errorHandler => simp [runError, errorHandler]
    all_goals (simp only [runError]; exact ih log)

/-- Normal dispatch appends to the console and never reads it: the
response is independent of the carried log, and the emitted log lines
are simply appended. -/
theorem runChain_shift (stages : List Stage) (req : Request) (res : Response)
    (log : List String) :
    runChain stages req res log =
      ((runChain stages req res []).1, log ++ (runChain stages req res []).2) := by
  induction stages generalizing req res log with
  | nil => simp [runChain]
  | cons s rest ih =>
    have hstep : ∀ (s2 : Stage),
        (match stageSem s2 req res log with
         | Outcome.next q r l => runChain rest q r l
         | Outcome.done r l => (r, l)
         | Outcome.thrown e r l => runError rest e req r l) =
        ((match stageSem s2 req res [] with
          | Outcome.next q r l => runChain rest q r l
          | Outcome.done r l => (r, l)
          | Outcome.thrown e r l => runError rest e req r l).1,
         log ++ (match stageSem s2 req res [] with
          | Outcome.next q r l => runChain rest q r l
          | Outcome.done r l => (r, l)
          | Outcome.thrown e r l => runError rest e req r l).2) := by
      intro s2
      rw [stageSem_shift]
      cases stageSem s2 req res [] with
      | next q r l =>
        simp only [withLog]
        rw [ih q r (log ++ l), ih q r l]
        simp
      | done r l => simp [withLog]
      | thrown e2 r l =>
        simp only [withLog]
        rw [runError_shift rest e2 req r (log ++ l), runError_shift rest e2 req r l]
        simp
    cases s
    case errorHandler => simpa only [runChain] using ih req res log
    case logger => simp only [runChain]; exact hstep Stage.logger
    case cors => simp only [runChain]; exact hstep Stage.cors
    case remove_x_powered_by => simp only [runChain]; exact hstep Stage.remove_x_powered_by
    case jsonParser => simp only [runChain]; exact hstep Stage.jsonParser
    case urlEncodedParser => simp only [runChain]; exact hstep Stage.urlEncodedParser
    case cookieParser => simp only [runChain]; exact hstep Stage.cookieParser
    case apiRouter => simp only [runChain]; exact hstep Stage.apiRouter
    case rootRouter => simp only [runChain]; exact hstep Stage.rootRouter
    case notFound => simp only [runChain]; exact hstep Stage.notFound

end ExpressApp

namespace ExpressApp

/-- The response component of a middleware outcome. -/
def outRes : Outcome → Response
  | Outcome.next _ r _ => r
  | Outcome.done r _ => r
  | Outcome.thrown _ r _ => r

/-- The console-log component of a middleware outcome. -/
def outLog : Outcome → List String
  | Outcome.next _ _ l => l
  | Outcome.done _ l => l
  | Outcome.thrown _ _ l => l

/-- Sequential composition of two middlewares: the second runs exactly
when the first forwards control. -/
def seq2 (m1 m2 : Middleware) : Middleware := fun req res log =>
  match m1 req res log with
  | Outcome.next q r l => m2 q r l
  | o => o

/-- Every response of the assembled application carries the same
headers: the three CORS wildcards and the JSON content type, with the
framework-identifying header removed. -/
theorem handleApp_headers (req : Request) : (handleApp req).headers = appHeaders := by
  rw [handleApp_cases req]
  split
  · rfl
  split
  · rfl
  split
  · rfl
  · rfl

/-- A GET / request whose content-type header announces JSON but whose
body is absent (undefined). -/
def jsonGetRootReq : Request :=
  { method := "GET", url := "/", headers := [("content-type", "application/json")],
    body := BodyVal.undef, cookies := [] }

/-- A GET /api/echo request whose content-type header announces JSON but
whose body is absent (undefined). -/
def jsonGetApiReq : Request :=
  { method := "GET", url := "/api/echo", headers := [("content-type", "application/json")],
    body := BodyVal.undef, cookies := [] }

/-- A GET /nope request whose content-type header announces JSON but
whose body is absent (undefined). -/
def jsonGetOtherReq : Request :=
  { method := "GET", url := "/nope", headers := [("content-type", "application/json")],
    body := BodyVal.undef, cookies := [] }

/-- A plain GET / request with no headers and no body. -/
def plainGetRootReq : Request :=
  { method := "GET", url := "/", headers := [], body := BodyVal.undef, cookies := [] }

/-- A plain GET /api/echo request with no headers and no body. -/
def plainGetApiReq : Request :=
  { method := "GET", url := "/api/echo", headers := [], body := BodyVal.undef, cookies := [] }

/-- A plain GET /nope request with no headers and no body. -/
def plainGetOtherReq : Request :=
  { method := "GET", url := "/nope", headers := [], body := BodyVal.undef, cookies := [] }

/-- C1, counterexample: the claim "every GET / request is answered 200
with the fixed hello body" fails at a concrete GET / request whose
content-type header equals application/json and whose body is absent:
the JSON body parser throws and the answer is 500, not 200. -/
theorem C1_counterexample :
    jsonGetRootReq.method = "GET" ∧ jsonGetRootReq.url = "/" ∧
      (handleApp jsonGetRootReq).status = 500 ∧ (handleApp jsonGetRootReq).status ≠ 200 :=
  ⟨rfl, rfl, rfl, by decide⟩

/-- C1, amended: every GET / request on which the JSON body parser does
not throw — its content-type header is not the literal application/json,
or its body parses as JSON — is answered with status 200 and exactly the
fixed hello-root JSON body. -/
theorem C1_get_root_ok (req : Request) (hm : req.method = "GET") (hu : req.url = "/")
    (hnothrow : headerGet req.headers "content-type" = some "application/json" →
      (JSON.parse req.body.jsToString).isSome) :
    (handleApp req).status = 200 ∧ (handleApp req).body = some helloRootBody := by
  rw [handleApp_cases req]
  have h1 : ¬(headerGet req.headers "content-type" = some "application/json"
      ∧ (JSON.parse req.body.jsToString).isNone = true) := by
    rintro ⟨hct, hn⟩
    have hs := hnothrow hct
    rcases hq : JSON.parse req.body.jsToString with _ | j
    · rw [hq] at hs; simp at hs
    · rw [hq] at hn; simp at hn
  rw [if_neg h1]
  have h2 : ¬(req.method = "GET" ∧ req.url = "/api/echo") := by
    rintro ⟨_, hu2⟩
    rw [hu] at hu2
    exact absurd hu2 (by decide)
  rw [if_neg h2, if_pos ⟨hm, hu⟩]
  exact ⟨rfl, rfl⟩

/-- C1, witness: the amended theorem applied to a concrete plain GET /
request. -/
theorem C1_witness :
    (handleApp plainGetRootReq).status = 200 ∧
      (handleApp plainGetRootReq).body = some helloRootBody :=
  C1_get_root_ok plainGetRootReq rfl rfl (fun h => absurd h (by decide))

/-- C2, counterexample: the claim "every GET /api/echo request is
answered 200 with the fixed API hello body" fails at a concrete
GET /api/echo request whose content-type header equals application/json
and whose body is absent: the JSON body parser throws and the answer is
500, not 200. -/
theorem C2_counterexample :
    jsonGetApiReq.method = "GET" ∧ jsonGetApiReq.url = "/api/echo" ∧
      (handleApp jsonGetApiReq).status = 500 ∧ (handleApp jsonGetApiReq).status ≠ 200 :=
  ⟨rfl, rfl, rfl, by decide⟩

/-- C2, amended: every GET /api/echo request on which the JSON body
parser does not throw is answered with status 200 and exactly the fixed
API hello JSON body. -/
theorem C2_get_api_echo_ok (req : Request) (hm : req.method = "GET")
    (hu : req.url = "/api/echo")
    (hnothrow : headerGet req.headers "content-type" = some "application/json" →
      (JSON.parse req.body.jsToString).isSome) :
    (handleApp req).status = 200 ∧ (handleApp req).body = some helloApiBody := by
  rw [handleApp_cases req]
  have h1 : ¬(headerGet req.headers "content-type" = some "application/json"
      ∧ (JSON.parse req.body.jsToString).isNone = true) := by
    rintro ⟨hct, hn⟩
    have hs := hnothrow hct
    rcases hq : JSON.parse req.body.jsToString with _ | j
    · rw [hq] at hs; simp at hs
    · rw [hq] at hn; simp at hn
  rw [if_neg h1, if_pos ⟨hm, hu⟩]
  exact ⟨rfl, rfl⟩

/-- C2, witness: the amended theorem applied to a concrete plain
GET /api/echo request. -/
theorem C2_witness :
    (handleApp plainGetApiReq).status = 200 ∧
      (handleApp plainGetApiReq).body = some helloApiBody :=
  C2_get_api_echo_ok plainGetApiReq rfl rfl (fun h => absurd h (by decide))

/-- C3, counterexample: the claim "every request other than GET / and
GET /api/echo is answered 404 with the fixed not-found body" fails at a
concrete GET /nope request whose content-type header equals
application/json and whose body is absent: the JSON body parser throws
and the answer is 500, not 404. -/
theorem C3_counterexample :
    (jsonGetOtherReq.method = "GET" ∧ jsonGetOtherReq.url = "/nope") ∧
      ¬(jsonGetOtherReq.method = "GET" ∧ jsonGetOtherReq.url = "/") ∧
      ¬(jsonGetOtherReq.method = "GET" ∧ jsonGetOtherReq.url = "/api/echo") ∧
      (handleApp jsonGetOtherReq).status = 500 ∧ (handleApp jsonGetOtherReq).status ≠ 404 :=
  ⟨⟨rfl, rfl⟩, by decide, by decide, rfl, by decide⟩

/-- C3, amended: every request whose method-and-path pair is neither
GET / nor GET /api/echo, and on which the JSON body parser does not
throw, is answered with status 404 and exactly the fixed not-found JSON
body. -/
theorem C3_not_found (req : Request)
    (hnotapi : ¬(req.method = "GET" ∧ req.url = "/api/echo"))
    (hnotroot : ¬(req.method = "GET" ∧ req.url = "/"))
    (hnothrow : headerGet req.headers "content-type" = some "application/json" →
      (JSON.parse req.body.jsToString).isSome) :
    (handleApp req).status = 404 ∧ (handleApp req).body = some notFoundBody := by
  rw [handleApp_cases req]
  have h1 : ¬(headerGet req.headers "content-type" = some "application/json"
      ∧ (JSON.parse req.body.jsToString).isNone = true) := by
    rintro ⟨hct, hn⟩
    have hs := hnothrow hct
    rcases hq : JSON.parse req.body.jsToString with _ | j
    · rw [hq] at hs; simp at hs
    · rw [hq] at hn; simp at hn
  rw [if_neg h1, if_neg hnotapi, if_neg hnotroot]
  exact ⟨rfl, rfl⟩

/-- C3, witness: the amended theorem applied to a concrete plain
GET /nope request. -/
theorem C3_witness :
    (handleApp plainGetOtherReq).status = 404 ∧
      (handleApp plainGetOtherReq).body = some notFoundBody :=
  C3_not_found plainGetOtherReq (by decide) (by decide) (fun h => absurd h (by decide))

/-- C4: for every failure the error handler logs the failure detail
(the error's stack) to the diagnostic stream and answers status 500 with
exactly the fixed internal-server-error JSON body; the response body is
the same for every failure cause, request and log, so no part of the
error value appears in it. -/
theorem C4_error_handler (err : JsError) (req : Request) (res : Response)
    (log : List String) :
    (outRes (errorHandler err req res log)).status = 500 ∧
    (outRes (errorHandler err req res log)).body = some internalErrorBody ∧
    outLog (errorHandler err req res log) = log ++ [err.stack] ∧
    (∀ (err2 : JsError) (req2 : Request) (log2 : List String),
      (outRes (errorHandler err2 req2 res log2)).body =
        (outRes (errorHandler err req res log)).body) :=
  ⟨rfl, rfl, rfl, fun _ _ _ => rfl⟩

/-- C5: the JSON body-parsing middleware replaces the body with its
structured parse exactly when the content-type header equals the literal
application/json; for any other content-type value it forwards the
request unchanged; and when the header matches but the body does not
parse it throws, and the whole application then answers with the 500
response of the generic error handler. -/
theorem C5_jsonParser_contract (req : Request) (res : Response) (log : List String) :
    (∀ j, headerGet req.headers "content-type" = some "application/json" →
        JSON.parse req.body.jsToString = some j →
        jsonParser req res log = Outcome.next { req with body := BodyVal.parsed j } res log)
    ∧ (headerGet req.headers "content-type" ≠ some "application/json" →
        jsonParser req res log = Outcome.next req res log)
    ∧ (headerGet req.headers "content-type" = some "application/json" →
        JSON.parse req.body.jsToString = none →
        (∃ e, jsonParser req res log = Outcome.thrown e res log) ∧
          handleApp req = errorResponse) := by
  refine ⟨?_, ?_, ?_⟩
  · intro j hct hj
    simp [jsonParser, hct, hj]
  · intro hct
    simp [jsonParser, hct]
  · intro hct hp
    constructor
    · refine ⟨{ stack := "SyntaxError: Unexpected token u in JSON at position 0" }, ?_⟩
      simp [jsonParser, hct, hp]
    · rw [handleApp_cases req, if_pos ⟨hct, by simp [hp]⟩]

/-- A request carrying the JSON content type and the parseable raw body
"null". -/
def jsonNullReq : Request :=
  { method := "GET", url := "/other", headers := [("content-type", "application/json")],
    body := BodyVal.raw "null", cookies := [] }

/-- C5, witness: the contract applied to a concrete request whose raw
body is the JSON text "null". -/
theorem C5_witness :
    jsonParser jsonNullReq initResponse [] =
      Outcome.next { jsonNullReq with body := BodyVal.parsed JsonVal.null } initResponse [] :=
  (C5_jsonParser_contract jsonNullReq initResponse []).1 JsonVal.null rfl rfl

/-- C6: every response of the assembled application — 200, 404 and 500
alike — carries the three CORS headers set to the wildcard and does not
carry the X-Powered-By header. -/
theorem C6_headers_invariant (req : Request) :
    headerGet (handleApp req).headers "Access-Control-Allow-Origin" = some "*" ∧
    headerGet (handleApp req).headers "Access-Control-Allow-Methods" = some "*" ∧
    headerGet (handleApp req).headers "Access-Control-Allow-Headers" = some "*" ∧
    headerGet (handleApp req).headers "X-Powered-By" = none := by
  rw [handleApp_headers req]
  decide

/-- C7: the assembled application mounts its stages in exactly the order
logging, CORS, X-Powered-By removal, JSON body parsing, url-encoded body
parsing, cookie parsing, the API router, the root router, the 404
handler and the error handler, with the last two being the 404 and
error handlers. -/
theorem C7_stage_order :
    app = [Stage.logger, Stage.cors, Stage.remove_x_powered_by, Stage.jsonParser,
           Stage.urlEncodedParser, Stage.cookieParser, Stage.apiRouter, Stage.rootRouter,
           Stage.notFound, Stage.errorHandler]
    ∧ app.drop 8 = [Stage.notFound, Stage.errorHandler] := by
  decide

/-- C8: the response of an exchange is a function of the request alone —
it is the same whatever console state was accumulated before — and
processing the same request twice in sequence yields identical
responses. -/
theorem C8_deterministic (log : List String) (req : Request) :
    (handleExchange log req).1 = handleApp req ∧
    (handleExchange (handleExchange log req).2 req).1 = (handleExchange log req).1 := by
  have key : ∀ lg, (handleExchange lg req).1 = handleApp req := by
    intro lg
    rw [handleExchange, runChain_shift]
    rfl
  exact ⟨key log, (key _).trans (key log).symm⟩

/-- C9: each pair of distinct header-removal middlewares commutes: on
every request, response and log, composing the two in either order
yields the same outcome (in particular the same response headers). -/
theorem C9_removal_commute (req : Request) (res : Response) (log : List String) :
    seq2 custom.remove_x_powered_by custom.remove_etag req res log =
      seq2 custom.remove_etag custom.remove_x_powered_by req res log ∧
    seq2 custom.remove_x_powered_by custom.remove_x_content_type_options req res log =
      seq2 custom.remove_x_content_type_options custom.remove_x_powered_by req res log ∧
    seq2 custom.remove_etag custom.remove_x_content_type_options req res log =
      seq2 custom.remove_x_content_type_options custom.remove_etag req res log := by
  refine ⟨?_, ?_, ?_⟩ <;>
    simp [seq2, custom.remove_x_powered_by, custom.remove_etag,
      custom.remove_x_content_type_options, headerRemove, List.filter_filter,
      Bool.and_comm]

/-- C10: every request whose content-type header equals application/json
and whose body is absent or is not valid JSON text makes the JSON body
parser throw, so the exchange ends in the error handler with status 500
and the fixed internal-server-error body — never the 200 echo response
and never the 404. -/
theorem C10_json_failure_500 (req : Request)
    (hct : headerGet req.headers "content-type" = some "application/json")
    (hb : req.body = BodyVal.undef ∨ JSON.parse req.body.jsToString = none) :
    (handleApp req).status = 500 ∧ (handleApp req).body = some internalErrorBody ∧
    (handleApp req).status ≠ 200 ∧ (handleApp req).status ≠ 404 := by
  have hp : JSON.parse req.body.jsToString = none := by
    rcases hb with h | h
    · rw [h]; exact rfl
    · exact h
  rw [handleApp_cases req, if_pos ⟨hct, by simp [hp]⟩]
  exact ⟨rfl, rfl, by decide, by decide⟩

/-- C10, witness: the theorem applied to a concrete GET / request with
the JSON content type and an absent body. -/
theorem C10_witness :
    (handleApp jsonGetRootReq).status = 500 ∧
      (handleApp jsonGetRootReq).body = some internalErrorBody ∧
      (handleApp jsonGetRootReq).status ≠ 200 ∧ (handleApp jsonGetRootReq).status ≠ 404 :=
  C10_json_failure_500 jsonGetRootReq rfl (Or.inl rfl)

end ExpressApp
